import Mathlib

/-!
Shallow embedding of the IST (Incremental State Transfer) subsystem of
galera/src/ist.cpp: the Receiver streaming loop (Receiver::run), the Sender
range streaming (Sender::send), the receiver lifecycle operations
(prepare / ready / finished, IST_determine_recv_addr) and the
AsyncSenderMap supervisor (remove, run_async_sender).

Machine integers: wsrep_seqno_t is a signed 64-bit integer; all seqno
arithmetic in the source stays far from the 64-bit boundaries, so seqnos
are modelled as Int. Errnos are modelled by their Linux values.
-/

namespace Galera

/-! ### errno values and sentinels -/

def EINTR : Int := 4

def EINVAL : Int := 22

def EPROTO : Int := 71

def WSREP_SEQNO_UNDEFINED : Int := -1

/-- Modelled from the spec: protocol version bounds are compile-time
    constants (spec 4.1); the constant VER40 used by Sender::send lives in
    ist_proto.hpp which is not among the sources in view. The galera-4 wire
    protocol version is 10. Only the existence of versions below VER40
    matters for the theorems here. -/
def VER40 : Int := 10

/-! ### Actions and frames

GCS_ACT_WRITESET / GCS_ACT_CCHANGE are the ordered action types;
GCS_ACT_UNKNOWN denotes application-layer EOF (Receiver::run line 491). -/

inductive ActType
  | writeset
  | cchange
  | unknown
deriving DecidableEq

/-- An ordered wire frame: one gcs_action (type, global seqno) plus the
    preload flag of recv_ordered / send_ordered. -/
structure Frame where
  atype : ActType
  seqno : Int
  preload : Bool
deriving DecidableEq

/-- One call of handler.ist_trx / handler.ist_cc: the action seqno and type
    together with the must_apply and preload flags it was passed. -/
structure Dispatch where
  seqno : Int
  atype : ActType
  mustApply : Bool
  preload : Bool
deriving DecidableEq

/-! ### Receiver streaming loop

Embeds the while (true) loop of galera::ist::Receiver::run (ist.cpp
475-683). The input is the sequence of frames produced by recv_ordered;
reaching the end of the list plays the role of end-of-stream, which
recv_ordered reports as a GCS_ACT_UNKNOWN action, exactly like an explicit
EOF frame. The result is (dispatched calls, ec, current_seqno_). -/

def streamLoop (firstSeqno : Int) : Int → List Frame → List Dispatch × Int × Int
  | cur, [] => ([], 0, cur)
  | cur, f :: rest =>
    if f.atype = ActType.unknown then
      -- eof received, closing socket
      ([], 0, cur)
    else if cur = WSREP_SEQNO_UNDEFINED ∧ f.seqno > firstSeqno then
      -- IST started with wrong seqno (line 505)
      ([], EINVAL, cur)
    else
      -- initialize current to the first seqno, else increment (lines 515, 527)
      let cur2 := if cur = WSREP_SEQNO_UNDEFINED then f.seqno else cur + 1
      if f.seqno ≠ cur2 then
        -- unexpected action seqno (line 532)
        ([], EINVAL, cur2)
      else
        let r := streamLoop firstSeqno cur2 rest
        (⟨f.seqno, f.atype, decide (cur2 ≥ firstSeqno), f.preload⟩ :: r.1, r.2.1, r.2.2)

/-- Input of one execution of the receive task: an errno thrown during the
    accept/handshake phase if any (EINTR arises when finished() injects a
    loopback C_EOF into the handshake), whether the SST rendezvous ended by
    interruption, and the frames subsequently read from the stream. -/
structure RunInput where
  hsErr : Option Int
  waitInterrupted : Bool
  frames : List Frame

/-- Outcome of Receiver::run: the dispatched handler calls, the argument of
    the single terminal ist_end call, the value stored into error_code_
    (none when the store is skipped because ec == EINTR), and the final
    current_seqno_. -/
structure RunResult where
  dispatched : List Dispatch
  istEnd : Int
  errorCodeStored : Option Int
  current : Int

/-- Receiver::run (ist.cpp 398-728) after a successful accept, as a function
    of the streaming input. current0 is the value of current_seqno_ on entry
    (WSREP_SEQNO_UNDEFINED on a freshly prepared receiver); the err label's
    short-stream check and the conditional error_code_ store are embedded
    verbatim (lines 716-727). -/
def runReceiver (firstSeqno lastSeqno current0 : Int) (inp : RunInput) : RunResult :=
  let t :=
    match inp.hsErr with
    | some e => (([] : List Dispatch), e, current0)
    | none =>
      if inp.waitInterrupted then
        -- interrupted_ == true: goto err with ec still 0 (lines 461-464)
        (([] : List Dispatch), 0, current0)
      else
        -- current_seqno_ = WSREP_SEQNO_UNDEFINED (line 473), then stream
        streamLoop firstSeqno WSREP_SEQNO_UNDEFINED inp.frames
  let ec := if 0 < lastSeqno ∧ t.2.1 ≠ EINTR ∧ t.2.2 < lastSeqno then EPROTO else t.2.1
  ⟨t.1, ec, if ec ≠ EINTR then some ec else none, t.2.2⟩

/-! ### Sender -/

/-- A GCache buffer as seen by Sender::send: its global seqno and the action
    type it will carry on the wire. -/
structure Buffer where
  seqno_g : Int
  btype : ActType
deriving DecidableEq

/-- The inner for loop of Sender::send (ist.cpp 996-1028): send each buffer
    with its preload flag; upon sending the buffer with seqno_g == last,
    send EOF and return. Result: (frames emitted, EOF-sent-and-returned). -/
def sendBufs (preloadStart last : Int) : List Buffer → List Frame × Bool
  | [] => ([], false)
  | b :: rest =>
    let fr : Frame := ⟨b.btype, b.seqno_g, decide (preloadStart > 0 ∧ b.seqno_g ≥ preloadStart)⟩
    if b.seqno_g = last then
      ([fr], true)
    else
      let r := sendBufs preloadStart last rest
      (fr :: r.1, r.2)

structure SendOut where
  frames : List Frame
  eof : Bool
deriving DecidableEq

/-- The while loop of Sender::send (ist.cpp 988-1037). sgb models
    gcache.seqno_get_buffers: given the requested start seqno and the vector
    size it returns the buffers filled (at most the vector size; the model
    truncates to it). The vector is sized min(last - first + 1, 1024) on
    every round, as in the source. n_read <= 0 exits the loop normally.
    fuel is an upper bound on the number of rounds; the top-level send
    supplies enough for any cache, since first advances by at least 1 per
    round. -/
def sendLoop (sgb : Int → Nat → List Buffer) (preloadStart last : Int) :
    Nat → Int → SendOut
  | 0, _ => ⟨[], false⟩
  | fuel + 1, first =>
    let size := min (last - first + 1).toNat 1024
    let bufs := (sgb first size).take size
    if bufs.length = 0 then
      ⟨[], false⟩
    else
      let r := sendBufs preloadStart last bufs
      if r.2 then
        ⟨r.1, true⟩
      else
        let out := sendLoop sgb preloadStart last fuel (first + (bufs.length : Int))
        ⟨r.1 ++ out.frames, out.eof⟩

/-- Sender::send (ist.cpp 931-1045). ctrl is the control code read after
    the handshake (recv_ctrl); a negative code fails with EPROTO. The
    result is the error thrown, or the ordered frames emitted together with
    whether the EOF control frame was sent. -/
def sendModel (version ctrl first last preloadStart : Int)
    (sgb : Int → Nat → List Buffer) : Except Int SendOut :=
  if first > last ∧ version < VER40 then
    -- sender send first greater than last (lines 934-942)
    Except.error EINVAL
  else if ctrl < 0 then
    -- IST handshake failed, peer reported error (line 963)
    Except.error EPROTO
  else if first > last ∨ (first = 0 ∧ last = 0) then
    -- send eof even if the set of transactions sent would be empty
    Except.ok ⟨[], true⟩
  else
    Except.ok (sendLoop sgb preloadStart last ((last - first + 1).toNat + 1) first)

/-- A cache holding contiguous write-set buffers: seqno_get_buffers fills
    the whole vector with buffers seqno first, first+1, ... as the GCache
    contract promises for a locked in-cache range. -/
def canonChunk (first : Int) : Nat → List Buffer
  | 0 => []
  | n + 1 => ⟨first, ActType.writeset⟩ :: canonChunk (first + 1) n

def canonCache (first : Int) (size : Nat) : List Buffer := canonChunk first size

/-- A full IST session: the donor streams with Sender::send over the
    contiguous cache, the joiner consumes the emitted frames with
    Receiver::run, uninterrupted, on a freshly prepared receiver whose
    last_seqno_ is the range end. -/
def sessionRun (version ctrl first last preloadStart firstSeqno : Int) :
    Except Int RunResult :=
  match sendModel version ctrl first last preloadStart canonCache with
  | Except.error e => Except.error e
  | Except.ok out =>
    Except.ok (runReceiver firstSeqno last WSREP_SEQNO_UNDEFINED ⟨none, false, out.frames⟩)

/-! ### Configuration and address derivation -/

abbrev Config := List (String × String)

def RECV_ADDR : String := "ist.recv_addr"

def RECV_BIND : String := "ist.recv_bind"

def BASE_HOST_KEY : String := "base_host"

def BASE_PORT_KEY : String := "base_port"

def SSL_KEY : String := "socket.ssl_key"

/-- Modelled from the spec: BASE_PORT_DEFAULT is declared in
    galera_common.hpp, not among the sources in view. The spec (section 6)
    says base_port is the fallback port with IST using base_port + 1;
    galera's default base port is 4567. The value is irrelevant to the
    claims settled here. -/
def BASE_PORT_DEFAULT : String := "4567"

/-- conf.get: the first binding of the key, mirroring gu::Config (throws
    NotSet, here none, when unset). -/
def lookupConf : Config → String → Option String
  | [], _ => none
  | (k, v) :: rest, key => if k = key then some v else lookupConf rest key

/-- Checks whether an SSL key is configured with nonzero length
    (IST_determine_recv_addr lines 217-224). -/
def sslEnabled (conf : Config) : Bool :=
  match lookupConf conf SSL_KEY with
  | some k => k.length != 0
  | none => false

/-- recv_addr.find of the explicit scheme separator (line 215). -/
def hasScheme (a : String) : Bool := (a.splitOn "://").length != 1

/-- Scheme insertion of IST_determine_recv_addr lines 215-230: no explicit
    scheme means ssl:// when an SSL key is configured, else tcp://. -/
def addScheme (conf : Config) (a : String) : String :=
  if hasScheme a then a
  else if sslEnabled conf then "ssl://" ++ a else "tcp://" ++ a

/-- Whether the URI carries an explicit port (gu::URI::get_port does not
    throw NotSet): the authority after the scheme contains a colon. The
    full gu::URI parser is an external collaborator (spec section 1); this
    simplified model ignores IPv6 bracket escaping. -/
def hasPort (a : String) : Bool :=
  (((a.splitOn "://").getD 1 "").splitOn ":").length != 1

/-- gmcast listen port: base_port from the config when parseable, else the
    default (IST_determine_recv_addr lines 244-253). -/
def basePort (conf : Config) : Nat :=
  match lookupConf conf BASE_PORT_KEY with
  | some p => p.toNat?.getD (BASE_PORT_DEFAULT.toNat?.getD 0)
  | none => BASE_PORT_DEFAULT.toNat?.getD 0

/-- IST_determine_recv_addr (ist.cpp 191-262): take ist.recv_addr, falling
    back to base_host, else fail with EINVAL; add a scheme when absent; add
    base_port + 1 when no explicit port is given. The side effect of
    setting base_host in the config is not tracked. -/
def istDetermineRecvAddr (conf : Config) : Except Int String :=
  match (match lookupConf conf RECV_ADDR with
         | some a => some a
         | none => lookupConf conf BASE_HOST_KEY) with
  | none => Except.error EINVAL
  | some a0 =>
    let a1 := addScheme conf a0
    if hasPort a1 then Except.ok a1
    else Except.ok (a1 ++ ":" ++ toString (basePort conf + 1))

/-- IST_determine_recv_bind (ist.cpp 264-312): like recv_addr but from
    ist.recv_bind only; an unset key propagates NotSet (none). -/
def istDetermineRecvBind (conf : Config) : Option String :=
  match lookupConf conf RECV_BIND with
  | none => none
  | some b0 =>
    let b1 := addScheme conf b0
    if hasPort b1 then some b1
    else some (b1 ++ ":" ++ toString (basePort conf + 1))

/-! ### Receiver lifecycle -/

/-- Receiver member state (ist.hpp fields as initialized by the
    constructor, ist.cpp 91-159). ready is named readyFlag to leave room
    for the ready() member function. -/
structure Receiver where
  recvAddr : String
  recvBind : String
  firstSeqno : Int
  lastSeqno : Int
  currentSeqno : Int
  errorCode : Int
  version : Int
  sourceId : Nat
  useSsl : Bool
  running : Bool
  interrupted : Bool
  readyFlag : Bool

/-- The constructor's member initializers (ist.cpp 96-130). -/
def Receiver.init : Receiver :=
  ⟨"", "", WSREP_SEQNO_UNDEFINED, WSREP_SEQNO_UNDEFINED, WSREP_SEQNO_UNDEFINED,
   0, -1, 0, false, false, false, false⟩

structure PrepResult where
  res : Except Int String
  st : Receiver
  listenerBound : Bool
  threadStarted : Bool

/-- Receiver::prepare (ist.cpp 314-395). ready_, version_ and source_id_
    are assigned before the address derivation; a failure of
    IST_determine_recv_addr propagates before the listener is bound or the
    receive thread is created. The asio bind and thread creation are
    modelled as succeeding; the substitution of the OS-assigned port into
    recv_addr is not tracked. -/
def Receiver.prepare (conf : Config) (st0 : Receiver)
    (first last version : Int) (sourceId : Nat) : PrepResult :=
  let st1 := { st0 with readyFlag := false, version := version, sourceId := sourceId }
  match istDetermineRecvAddr conf with
  | Except.error e => ⟨Except.error e, st1, false, false⟩
  | Except.ok ra =>
    let rb := (istDetermineRecvBind conf).getD ra
    let st2 := { st1 with recvAddr := ra, recvBind := rb,
                          useSsl := ra.startsWith "ssl://" }
    let st3 := { st2 with firstSeqno := first, lastSeqno := last, running := true }
    ⟨Except.ok ra, st3, true, true⟩

/-- Receiver::ready (ist.cpp 731-740): unconditionally overwrite
    first_seqno_ with the argument and signal the rendezvous. -/
def Receiver.ready (st : Receiver) (first : Int) : Receiver :=
  { st with firstSeqno := first, readyFlag := true }

/-- Outcome of Receiver::finished: the state afterwards, the returned
    current_seqno_, whether interrupt() was invoked (the loopback EOF
    connection) and whether the receive thread was joined. -/
structure FinOut where
  st : Receiver
  ret : Int
  interruptCalled : Bool
  joined : Bool

/-- Receiver::finished (ist.cpp 745-786): a receiver whose recv_addr_ is
    empty only returns current_seqno_; otherwise interrupt, mark
    interrupted_ when ready_ is still false, join the thread, close the
    acceptor and clear running_ and recv_addr_. -/
def Receiver.finished (st : Receiver) : FinOut :=
  if st.recvAddr = "" then
    ⟨st, st.currentSeqno, false, false⟩
  else
    let st1 := if st.readyFlag = false then { st with interrupted := true } else st
    ⟨{ st1 with running := false, recvAddr := "" }, st.currentSeqno, true, true⟩

/-- Receiver::run with the firstSeqno/lastSeqno/current_seqno thresholds
    drawn from the receiver state, as run_receiver_thread does. -/
def runFromState (st : Receiver) (inp : RunInput) : RunResult :=
  runReceiver st.firstSeqno st.lastSeqno st.currentSeqno inp

/-! ### AsyncSenderMap -/

/-- AsyncSenderMap::remove (ist.cpp 1133-1142): find the sender in the set,
    throw NotFound (modelled as error ()) when absent, else erase it. The
    seqno argument is ignored. -/
def AsyncSenderMap.remove (senders : Finset Nat) (as : Nat) (seqno : Int) :
    Except Unit (Finset Nat) :=
  if as ∉ senders then Except.error () else Except.ok (senders.erase as)

/-- run_async_sender (ist.cpp 1050-1110): the join_seqno reported to remove
    is last on success and -errno on failure of send. -/
def runAsyncSenderJoinSeqno (last : Int) (sendRes : Except Int Unit) : Int :=
  match sendRes with
  | Except.ok _ => last
  | Except.error e => -e

/-- The supervisor interaction of run_async_sender: report join_seqno to
    AsyncSenderMap::remove. -/
def runAsyncSender (senders : Finset Nat) (as : Nat) (last : Int)
    (sendRes : Except Int Unit) : Except Unit (Finset Nat) :=
  AsyncSenderMap.remove senders as (runAsyncSenderJoinSeqno last sendRes)

/-! ### Canonical contiguous sequences

Closed forms for what the sender emits over the contiguous cache and what
the receiver dispatches from it, used to state and prove the session
theorems. -/

/-- The frames Sender::send emits for the contiguous cache: writesets with
    seqnos first, first+1, ... and the preload flag formula of line 1002. -/
def canonFrames (preloadStart first : Int) : Nat → List Frame
  | 0 => []
  | n + 1 =>
    ⟨ActType.writeset, first, decide (preloadStart > 0 ∧ first ≥ preloadStart)⟩ ::
      canonFrames preloadStart (first + 1) n

/-- The dispatches Receiver::run makes from canonFrames. -/
def canonDispatch (firstSeqno preloadStart first : Int) : Nat → List Dispatch
  | 0 => []
  | n + 1 =>
    ⟨first, ActType.writeset, decide (first ≥ firstSeqno),
      decide (preloadStart > 0 ∧ first ≥ preloadStart)⟩ ::
      canonDispatch firstSeqno preloadStart (first + 1) n

/-- The contiguous seqno list first, first+1, ... of length n. -/
def seqList (first : Int) : Nat → List Int
  | 0 => []
  | n + 1 => first :: seqList (first + 1) n

/-- The seqno range f, f+1, ..., last. -/
def seqRange (first last : Int) : List Int := seqList first (last - first + 1).toNat

/-- A boolean list is monotonically non-decreasing: it never steps from
    true back to false, so it is false ... false true ... true. -/
def monoFT : List Bool → Bool
  | [] => true
  | [_] => true
  | a :: b :: t => (!a || b) && monoFT (b :: t)

/-! ### Lemmas: canonical sequences -/

theorem canonChunk_length (first : Int) : ∀ n, (canonChunk first n).length = n := by
  intro n
  induction n generalizing first with
  | zero => rfl
  | succ n ih => simp [canonChunk, ih]

theorem canonFrames_append (ps : Int) :
    ∀ m k first, canonFrames ps first m ++ canonFrames ps (first + (m : Int)) k
      = canonFrames ps first (m + k) := by
  intro m
  induction m with
  | zero => intro k first; simp [canonFrames]
  | succ m ih =>
    intro k first
    have h1 : first + ((m + 1 : Nat) : Int) = (first + 1) + (m : Int) := by
      push_cast
      ring
    have h2 : m + 1 + k = (m + k) + 1 := by omega
    rw [h2]
    simp only [canonFrames, List.cons_append, h1, ih k (first + 1)]

theorem mem_seqList (x : Int) :
    ∀ n first, x ∈ seqList first n ↔ first ≤ x ∧ x < first + n := by
  intro n
  induction n with
  | zero => intro first; simp [seqList]
  | succ n ih =>
    intro first
    simp only [seqList, List.mem_cons, ih (first + 1)]
    push_cast
    omega

theorem seqList_nodup : ∀ n first, (seqList first n).Nodup := by
  intro n
  induction n with
  | zero => intro first; simp [seqList]
  | succ n ih =>
    intro first
    refine List.nodup_cons.mpr ⟨?_, ih (first + 1)⟩
    rw [mem_seqList]
    omega

theorem canonDispatch_map_seqno (fs ps : Int) :
    ∀ n first, (canonDispatch fs ps first n).map Dispatch.seqno = seqList first n := by
  intro n
  induction n generalizing fs ps with
  | zero => intro first; rfl
  | succ n ih => intro first; simp [canonDispatch, seqList, ih]

theorem canonDispatch_map_preload (fs ps : Int) :
    ∀ n first, (canonDispatch fs ps first n).map Dispatch.preload
      = (canonFrames ps first n).map Frame.preload := by
  intro n
  induction n generalizing fs ps with
  | zero => intro first; rfl
  | succ n ih => intro first; simp [canonDispatch, canonFrames, ih]

theorem monoFT_canonFrames_preload (ps : Int) :
    ∀ n first, monoFT ((canonFrames ps first n).map Frame.preload) = true := by
  intro n
  induction n with
  | zero => intro first; rfl
  | succ n ih =>
    intro first
    match n, ih with
    | 0, _ => rfl
    | n + 1, ih =>
      have hstep : (!(decide (ps > 0 ∧ first ≥ ps)) ||
          decide (ps > 0 ∧ first + 1 ≥ ps)) = true := by
        have himp : (decide (ps > 0 ∧ first ≥ ps)) = true →
            (decide (ps > 0 ∧ first + 1 ≥ ps)) = true := by
          simp only [decide_eq_true_eq]
          omega
        cases h : decide (ps > 0 ∧ first ≥ ps) with
        | false => rfl
        | true => simp [himp h]
      simp only [canonFrames, List.map_cons, monoFT, hstep, Bool.true_and]
      exact ih (first + 1)

/-! ### Lemmas: the sender over the contiguous cache -/

theorem sendBufs_cons (ps last : Int) (b : Buffer) (rest : List Buffer) :
    sendBufs ps last (b :: rest)
      = (if b.seqno_g = last
         then ([⟨b.btype, b.seqno_g, decide (ps > 0 ∧ b.seqno_g ≥ ps)⟩], true)
         else (⟨b.btype, b.seqno_g, decide (ps > 0 ∧ b.seqno_g ≥ ps)⟩ :: (sendBufs ps last rest).1,
               (sendBufs ps last rest).2)) := rfl

theorem sendBufs_canon_hit (ps last : Int) :
    ∀ n first, first ≤ last → (last - first + 1).toNat = n + 1 →
      sendBufs ps last (canonChunk first (n + 1)) = (canonFrames ps first (n + 1), true) := by
  intro n
  induction n with
  | zero =>
    intro first hle hN
    have : first = last := by omega
    subst this
    simp [canonChunk, sendBufs, canonFrames]
  | succ n ih =>
    intro first hle hN
    have hne : first ≠ last := by omega
    have hrec := ih (first + 1) (by omega) (by omega)
    rw [show canonChunk first (n + 1 + 1)
          = (⟨first, ActType.writeset⟩ : Buffer) :: canonChunk (first + 1) (n + 1) from rfl]
    rw [sendBufs_cons]
    dsimp only
    rw [if_neg hne, hrec]
    simp [canonFrames]

theorem sendBufs_canon_miss (ps last : Int) :
    ∀ (n : Nat) (first : Int), first + (n : Int) ≤ last →
      sendBufs ps last (canonChunk first n) = (canonFrames ps first n, false) := by
  intro n
  induction n with
  | zero => intro first _; rfl
  | succ n ih =>
    intro first hle
    have hne : first ≠ last := by push_cast at hle; omega
    simp only [canonChunk, sendBufs, if_neg hne]
    rw [ih (first + 1) (by push_cast at hle ⊢; omega)]
    simp [canonFrames]

theorem canonChunk_take (first : Int) :
    ∀ n : Nat, (canonChunk first n).take n = canonChunk first n := by
  intro n
  induction n generalizing first with
  | zero => rfl
  | succ n ih => simp [canonChunk, List.take_succ_cons, ih]

theorem canonCache_take (first : Int) (n : Nat) :
    (canonCache first n).take n = canonChunk first n :=
  canonChunk_take first n

theorem sendLoop_canon (ps last : Int) :
    ∀ fuel first, first ≤ last → (last - first + 1).toNat ≤ fuel →
      sendLoop canonCache ps last fuel first
        = ⟨canonFrames ps first (last - first + 1).toNat, true⟩ := by
  intro fuel
  induction fuel with
  | zero =>
    intro first hle hfuel
    exfalso
    omega
  | succ fuel ih =>
    intro first hle hfuel
    by_cases h1024 : (last - first + 1).toNat ≤ 1024
    · -- a single batch reaches last
      have hsize : min (last - first + 1).toNat 1024 = (last - first + 1).toNat :=
        Nat.min_eq_left h1024
      obtain ⟨m, hm⟩ : ∃ m, (last - first + 1).toNat = m + 1 :=
        ⟨(last - first + 1).toNat - 1, by omega⟩
      have hhit := sendBufs_canon_hit ps last m first hle hm
      simp only [sendLoop, canonCache_take, canonChunk_length, hsize]
      rw [hm, hhit]
      simp
    · -- a full batch of 1024, all short of last, then recurse
      have hsize : min (last - first + 1).toNat 1024 = 1024 :=
        Nat.min_eq_right (by omega)
      have hmiss : sendBufs ps last (canonChunk first 1024)
          = (canonFrames ps first 1024, false) := by
        apply sendBufs_canon_miss
        push_cast
        omega
      have hle2 : first + (1024 : Int) ≤ last := by omega
      have hfuel2 : (last - (first + 1024) + 1).toNat ≤ fuel := by omega
      have hrec := ih (first + 1024) hle2 hfuel2
      simp only [sendLoop, canonCache_take, canonChunk_length, hsize]
      rw [hmiss]
      push_cast
      rw [hrec]
      have happ := canonFrames_append ps 1024 (last - (first + 1024) + 1).toNat first
      have hsum : 1024 + (last - (first + 1024) + 1).toNat = (last - first + 1).toNat := by
        omega
      rw [hsum] at happ
      push_cast at happ
      simp only [happ]

/-! ### Lemmas: the receiver streaming loop -/

theorem streamLoop_cons_eq (fs cur : Int) (f : Frame) (rest : List Frame) :
    streamLoop fs cur (f :: rest) =
      if f.atype = ActType.unknown then ([], 0, cur)
      else if cur = WSREP_SEQNO_UNDEFINED ∧ f.seqno > fs then ([], EINVAL, cur)
      else if f.seqno ≠ (if cur = WSREP_SEQNO_UNDEFINED then f.seqno else cur + 1)
        then ([], EINVAL, (if cur = WSREP_SEQNO_UNDEFINED then f.seqno else cur + 1))
        else (⟨f.seqno, f.atype,
                decide ((if cur = WSREP_SEQNO_UNDEFINED then f.seqno else cur + 1) ≥ fs),
                f.preload⟩
                :: (streamLoop fs (if cur = WSREP_SEQNO_UNDEFINED then f.seqno else cur + 1) rest).1,
              (streamLoop fs (if cur = WSREP_SEQNO_UNDEFINED then f.seqno else cur + 1) rest).2.1,
              (streamLoop fs (if cur = WSREP_SEQNO_UNDEFINED then f.seqno else cur + 1) rest).2.2)
    := rfl

theorem streamLoop_mustApply (fs : Int) :
    ∀ (frames : List Frame) (cur : Int) (d : Dispatch),
      d ∈ (streamLoop fs cur frames).1 → d.mustApply = decide (d.seqno ≥ fs) := by
  intro frames
  induction frames with
  | nil =>
    intro cur d h
    simp [streamLoop] at h
  | cons f rest ih =>
    intro cur d h
    rw [streamLoop_cons_eq] at h
    split_ifs at h with h1 h2 h3 h4 h5
    · simp at h
    · simp at h
    · simp at h
    · -- first frame: current initialized to f.seqno
      rcases List.mem_cons.mp h with hd | hm
      · subst hd
        rfl
      · exact ih _ d hm
    · simp at h
    · -- subsequent frame: current incremented, f.seqno = current
      push_neg at h5
      rcases List.mem_cons.mp h with hd | hm
      · subst hd
        dsimp only
        rw [h5]
      · exact ih _ d hm

theorem streamLoop_preload_verbatim (fs : Int) :
    ∀ (frames : List Frame) (cur : Int),
      ∃ t, (streamLoop fs cur frames).1.map Dispatch.preload ++ t
            = frames.map Frame.preload := by
  intro frames
  induction frames with
  | nil =>
    intro cur
    exact ⟨[], by simp [streamLoop]⟩
  | cons f rest ih =>
    intro cur
    rw [streamLoop_cons_eq]
    split_ifs with h1 h2 h3 h4 h5
    · exact ⟨(f :: rest).map Frame.preload, by simp⟩
    · exact ⟨(f :: rest).map Frame.preload, by simp⟩
    · exact ⟨(f :: rest).map Frame.preload, by simp⟩
    · obtain ⟨t, ht⟩ := ih f.seqno
      exact ⟨t, by simp [ht]⟩
    · exact ⟨(f :: rest).map Frame.preload, by simp⟩
    · obtain ⟨t, ht⟩ := ih (cur + 1)
      exact ⟨t, by simp [ht]⟩

theorem streamLoop_canon_tail (fs ps : Int) :
    ∀ (n : Nat) (cur : Int), 0 ≤ cur →
      streamLoop fs cur (canonFrames ps (cur + 1) n)
        = (canonDispatch fs ps (cur + 1) n, 0, cur + n) := by
  intro n
  induction n with
  | zero =>
    intro cur h
    simp [canonFrames, streamLoop, canonDispatch]
  | succ n ih =>
    intro cur h
    have hne : ¬ cur = WSREP_SEQNO_UNDEFINED := by
      rw [WSREP_SEQNO_UNDEFINED]
      omega
    show streamLoop fs cur
        ((⟨ActType.writeset, cur + 1, decide (ps > 0 ∧ cur + 1 ≥ ps)⟩ : Frame)
          :: canonFrames ps (cur + 1 + 1) n) = _
    rw [streamLoop_cons_eq]
    dsimp only
    rw [if_neg (by decide : ¬ ActType.writeset = ActType.unknown)]
    rw [if_neg (by simp [hne])]
    rw [if_neg hne]
    rw [if_neg (by simp : ¬ (cur + 1 ≠ cur + 1))]
    have hrec := ih (cur + 1) (by omega)
    rw [hrec]
    dsimp only
    rw [(by push_cast; ring : (cur + 1) + (n : Int) = cur + ((n + 1 : Nat) : Int))]
    simp [canonDispatch]

theorem streamLoop_canon_head (fs ps first : Int) (h0 : 0 < first) (hle : first ≤ fs) :
    ∀ n : Nat, streamLoop fs WSREP_SEQNO_UNDEFINED (canonFrames ps first (n + 1))
      = (canonDispatch fs ps first (n + 1), 0, first + n) := by
  intro n
  show streamLoop fs WSREP_SEQNO_UNDEFINED
      ((⟨ActType.writeset, first, decide (ps > 0 ∧ first ≥ ps)⟩ : Frame)
        :: canonFrames ps (first + 1) n) = _
  rw [streamLoop_cons_eq]
  dsimp only
  rw [if_neg (by decide : ¬ ActType.writeset = ActType.unknown)]
  rw [if_neg (by omega : ¬ (WSREP_SEQNO_UNDEFINED = WSREP_SEQNO_UNDEFINED ∧ first > fs))]
  rw [if_pos rfl]
  rw [if_neg (by simp : ¬ (first ≠ first))]
  have hrec := streamLoop_canon_tail fs ps n first (by omega)
  cases n with
  | zero =>
    simp only [canonFrames, streamLoop, canonDispatch] at hrec ⊢
    simp
  | succ m =>
    rw [hrec]
    dsimp only
    rw [(by push_cast; ring : first + ((m + 1 : Nat) : Int) = first + 1 + (m : Int))]
    simp [canonDispatch]

/-- The full clean session over the contiguous cache: the sender emits the
    range [first..last] with EOF, the receiver dispatches all of it and
    terminates with ist_end(0), ending at current_seqno_ == last. -/
theorem sessionRun_canon (version ctrl first last ps fs : Int)
    (h0 : 0 < first) (h1 : first ≤ last) (h2 : first ≤ fs) (hc : 0 ≤ ctrl) :
    sessionRun version ctrl first last ps fs
      = Except.ok ⟨canonDispatch fs ps first (last - first + 1).toNat, 0, some 0, last⟩ := by
  have c1 : ¬(first > last ∧ version < VER40) := by omega
  have c2 : ¬(ctrl < 0) := by omega
  have c3 : ¬(first > last ∨ (first = 0 ∧ last = 0)) := by omega
  have hsend : sendModel version ctrl first last ps canonCache
      = Except.ok ⟨canonFrames ps first (last - first + 1).toNat, true⟩ := by
    simp only [sendModel, if_neg c1, if_neg c2, if_neg c3]
    rw [sendLoop_canon ps last _ first h1 (by omega)]
  obtain ⟨m, hm⟩ : ∃ m, (last - first + 1).toNat = m + 1 :=
    ⟨(last - first + 1).toNat - 1, by omega⟩
  have hstream := streamLoop_canon_head fs ps first h0 h2 m
  have hfl : first + (m : Int) = last := by omega
  rw [sessionRun, hsend]
  simp only [runReceiver, hm, hstream]
  rw [hfl]
  simp [EINTR, EPROTO]

theorem sendBufs_preload (ps last : Int) :
    ∀ bufs : List Buffer, ∀ fr ∈ (sendBufs ps last bufs).1,
      fr.preload = decide (ps > 0 ∧ fr.seqno ≥ ps) := by
  intro bufs
  induction bufs with
  | nil =>
    intro fr h
    simp [sendBufs] at h
  | cons b rest ih =>
    intro fr h
    rw [sendBufs_cons] at h
    split_ifs at h with h1
    · simp only [List.mem_singleton] at h
      subst h
      rfl
    · rcases List.mem_cons.mp h with hd | hm
      · subst hd
        rfl
      · exact ih fr hm

theorem sendLoop_succ_eq (sgb : Int → Nat → List Buffer) (ps last : Int)
    (fuel : Nat) (first : Int) :
    sendLoop sgb ps last (fuel + 1) first =
      (if ((sgb first (min (last - first + 1).toNat 1024)).take
            (min (last - first + 1).toNat 1024)).length = 0
       then ⟨[], false⟩
       else if (sendBufs ps last ((sgb first (min (last - first + 1).toNat 1024)).take
                  (min (last - first + 1).toNat 1024))).2
         then ⟨(sendBufs ps last ((sgb first (min (last - first + 1).toNat 1024)).take
                  (min (last - first + 1).toNat 1024))).1, true⟩
         else ⟨(sendBufs ps last ((sgb first (min (last - first + 1).toNat 1024)).take
                  (min (last - first + 1).toNat 1024))).1
                ++ (sendLoop sgb ps last fuel
                      (first + ((((sgb first (min (last - first + 1).toNat 1024)).take
                            (min (last - first + 1).toNat 1024)).length : Nat) : Int))).frames,
               (sendLoop sgb ps last fuel
                  (first + ((((sgb first (min (last - first + 1).toNat 1024)).take
                        (min (last - first + 1).toNat 1024)).length : Nat) : Int))).eof⟩)
    := rfl

theorem sendLoop_preload (sgb : Int → Nat → List Buffer) (ps last : Int) :
    ∀ (fuel : Nat) (first : Int), ∀ fr ∈ (sendLoop sgb ps last fuel first).frames,
      fr.preload = decide (ps > 0 ∧ fr.seqno ≥ ps) := by
  intro fuel
  induction fuel with
  | zero =>
    intro first fr h
    simp [sendLoop] at h
  | succ fuel ih =>
    intro first fr h
    rw [sendLoop_succ_eq] at h
    split_ifs at h with h1 h2
    · simp at h
    · exact sendBufs_preload ps last _ fr h
    · rcases List.mem_append.mp h with hl | hr
      · exact sendBufs_preload ps last _ fr hl
      · exact ih _ fr hr

theorem sendModel_preload (version ctrl first last ps : Int)
    (sgb : Int → Nat → List Buffer) (out : SendOut)
    (h : sendModel version ctrl first last ps sgb = Except.ok out) :
    ∀ fr ∈ out.frames, fr.preload = decide (ps > 0 ∧ fr.seqno ≥ ps) := by
  unfold sendModel at h
  split_ifs at h with h1 h2 h3
  · simp only [Except.ok.injEq] at h
    subst h
    intro fr hf
    simp at hf
  · simp only [Except.ok.injEq] at h
    subst h
    exact sendLoop_preload sgb ps last _ first

theorem runReceiver_mustApply (fs last cur0 : Int) (inp : RunInput) :
    ∀ d ∈ (runReceiver fs last cur0 inp).dispatched,
      d.mustApply = decide (d.seqno ≥ fs) := by
  intro d hd
  cases hinp : inp.hsErr with
  | some e =>
    simp [runReceiver, hinp] at hd
  | none =>
    by_cases hw : inp.waitInterrupted
    · simp [runReceiver, hinp, hw] at hd
    · simp only [runReceiver, hinp, hw] at hd
      exact streamLoop_mustApply fs inp.frames _ d (by simpa using hd)

/-! ### Claim theorems -/

/-- C1: every receive session that completes without interruption or error
    dispatches exactly the seqnos f, f+1, ..., last for f = first ≤
    first_seqno, with no duplicates and no gaps; the first data frame is
    rejected with EINVAL when its seqno_g exceeds first_seqno and otherwise
    initializes current_seqno_ to it; a subsequent frame is rejected with
    EINVAL when its seqno_g differs from the incremented current_seqno_. -/
theorem session_dispatch_contiguous (version ctrl first last ps fs : Int)
    (h0 : 0 < first) (h1 : first ≤ last) (h2 : first ≤ fs) (hc : 0 ≤ ctrl) :
    (∃ r : RunResult, sessionRun version ctrl first last ps fs = Except.ok r ∧
       r.istEnd = 0 ∧
       r.dispatched.map Dispatch.seqno = seqRange first last ∧
       (r.dispatched.map Dispatch.seqno).Nodup ∧
       (∀ s : Int, s ∈ r.dispatched.map Dispatch.seqno ↔ first ≤ s ∧ s ≤ last)) ∧
    (∀ (fs2 : Int) (f : Frame) (rest : List Frame), f.atype ≠ ActType.unknown →
       f.seqno > fs2 →
       streamLoop fs2 WSREP_SEQNO_UNDEFINED (f :: rest)
         = ([], EINVAL, WSREP_SEQNO_UNDEFINED)) ∧
    (∀ (fs2 cur : Int) (f : Frame) (rest : List Frame), cur ≠ WSREP_SEQNO_UNDEFINED →
       f.atype ≠ ActType.unknown → f.seqno ≠ cur + 1 →
       streamLoop fs2 cur (f :: rest) = ([], EINVAL, cur + 1)) := by
  refine ⟨?_, ?_, ?_⟩
  · refine ⟨_, sessionRun_canon version ctrl first last ps fs h0 h1 h2 hc, rfl, ?_, ?_, ?_⟩
    · exact canonDispatch_map_seqno fs ps _ first
    · rw [canonDispatch_map_seqno]
      exact seqList_nodup _ first
    · intro s
      rw [canonDispatch_map_seqno]
      rw [mem_seqList]
      omega
  · intro fs2 f rest hat hgt
    rw [streamLoop_cons_eq, if_neg hat, if_pos ⟨rfl, hgt⟩]
  · intro fs2 cur f rest hcur hat hne
    rw [streamLoop_cons_eq, if_neg hat]
    rw [if_neg (fun hh : cur = WSREP_SEQNO_UNDEFINED ∧ f.seqno > fs2 => hcur hh.1)]
    rw [if_neg hcur, if_pos hne]

/-- C1 witness: a concrete clean session first=2, last=5, preload_start=4,
    first_seqno=3. -/
theorem session_dispatch_contiguous_witness :
    (∃ r : RunResult, sessionRun 10 0 2 5 4 3 = Except.ok r ∧
       r.istEnd = 0 ∧
       r.dispatched.map Dispatch.seqno = seqRange 2 5 ∧
       (r.dispatched.map Dispatch.seqno).Nodup ∧
       (∀ s : Int, s ∈ r.dispatched.map Dispatch.seqno ↔ 2 ≤ s ∧ s ≤ 5)) ∧
    (∀ (fs2 : Int) (f : Frame) (rest : List Frame), f.atype ≠ ActType.unknown →
       f.seqno > fs2 →
       streamLoop fs2 WSREP_SEQNO_UNDEFINED (f :: rest)
         = ([], EINVAL, WSREP_SEQNO_UNDEFINED)) ∧
    (∀ (fs2 cur : Int) (f : Frame) (rest : List Frame), cur ≠ WSREP_SEQNO_UNDEFINED →
       f.atype ≠ ActType.unknown → f.seqno ≠ cur + 1 →
       streamLoop fs2 cur (f :: rest) = ([], EINVAL, cur + 1)) :=
  session_dispatch_contiguous 10 0 2 5 4 3 (by decide) (by decide) (by decide) (by decide)

/-- C2: every dispatched frame is passed must_apply = (seqno_g ≥
    first_seqno); frames whose seqno_g is below the threshold are still
    dispatched, with must_apply = false. -/
theorem dispatch_must_apply (fs cur : Int) (frames : List Frame) :
    (∀ d ∈ (streamLoop fs cur frames).1, d.mustApply = decide (d.seqno ≥ fs)) ∧
    (streamLoop 5 WSREP_SEQNO_UNDEFINED
        [⟨ActType.writeset, 3, false⟩, ⟨ActType.writeset, 4, false⟩]
      = ([⟨3, ActType.writeset, false, false⟩, ⟨4, ActType.writeset, false, false⟩], 0, 4)) := by
  constructor
  · intro d hd
    exact streamLoop_mustApply fs frames cur d hd
  · rfl

/-- C2 witness: the below-threshold frame 3 against first_seqno 5 is
    dispatched with must_apply = false = (3 ≥ 5). -/
theorem dispatch_must_apply_witness :
    (⟨3, ActType.writeset, false, false⟩ : Dispatch) ∈
      (streamLoop 5 WSREP_SEQNO_UNDEFINED
        [⟨ActType.writeset, 3, false⟩, ⟨ActType.writeset, 4, false⟩]).1 ∧
    (⟨3, ActType.writeset, false, false⟩ : Dispatch).mustApply
      = decide ((⟨3, ActType.writeset, false, false⟩ : Dispatch).seqno ≥ (5 : Int)) :=
  ⟨by decide,
   (dispatch_must_apply 5 WSREP_SEQNO_UNDEFINED
      [⟨ActType.writeset, 3, false⟩, ⟨ActType.writeset, 4, false⟩]).1
     ⟨3, ActType.writeset, false, false⟩ (by decide)⟩

/-- C6: within a session the preload flag over dispatched frames is
    monotonically non-decreasing (false to true at most once, never back);
    each sender-emitted frame's preload equals (preload_start > 0 ∧ seqno_g
    ≥ preload_start); the receiver passes the received flag through to the
    handler verbatim (the dispatched preload sequence is a prefix of the
    received one). -/
theorem preload_monotone_session (version ctrl first last ps fs : Int)
    (h0 : 0 < first) (h1 : first ≤ last) (h2 : first ≤ fs) (hc : 0 ≤ ctrl) :
    (∀ (v c f l p : Int) (sgb : Int → Nat → List Buffer) (out : SendOut),
       sendModel v c f l p sgb = Except.ok out →
       ∀ fr ∈ out.frames, fr.preload = decide (p > 0 ∧ fr.seqno ≥ p)) ∧
    (∀ (fs2 cur : Int) (frames : List Frame),
       ∃ t, (streamLoop fs2 cur frames).1.map Dispatch.preload ++ t
             = frames.map Frame.preload) ∧
    (∃ r : RunResult, sessionRun version ctrl first last ps fs = Except.ok r ∧
       monoFT (r.dispatched.map Dispatch.preload) = true) := by
  refine ⟨?_, ?_, ?_⟩
  · intro v c f l p sgb out h
    exact sendModel_preload v c f l p sgb out h
  · intro fs2 cur frames
    exact streamLoop_preload_verbatim fs2 frames cur
  · refine ⟨_, sessionRun_canon version ctrl first last ps fs h0 h1 h2 hc, ?_⟩
    rw [canonDispatch_map_preload]
    exact monoFT_canonFrames_preload ps _ first

/-- C6 witness: the concrete session first=2, last=5, preload_start=4,
    first_seqno=3 has a monotone preload sequence. -/
theorem preload_monotone_session_witness :
    ∃ r : RunResult, sessionRun 10 0 2 5 4 3 = Except.ok r ∧
      monoFT (r.dispatched.map Dispatch.preload) = true :=
  (preload_monotone_session 10 0 2 5 4 3
     (by decide) (by decide) (by decide) (by decide)).2.2

/-- C8: the first-seqno threshold used for must_apply during streaming is
    the argument of the most recent ready() call: ready(r) unconditionally
    overwrites first_seqno_ regardless of the first_seqno prepare stored,
    and every subsequent must_apply decision is made against r. -/
theorem ready_overwrites_threshold (conf : Config) (st0 : Receiver)
    (p last version : Int) (sourceId : Nat) (r : Int) (inp : RunInput) :
    (Receiver.ready ((Receiver.prepare conf st0 p last version sourceId).st) r).firstSeqno
      = r ∧
    (∀ d ∈ (runFromState
        (Receiver.ready ((Receiver.prepare conf st0 p last version sourceId).st) r)
        inp).dispatched,
      d.mustApply = decide (d.seqno ≥ r)) := by
  constructor
  · rfl
  · intro d hd
    exact runReceiver_mustApply r _ _ inp d hd

/-- C8 witness: prepare stores first_seqno 7, ready overwrites with 3, and a
    frame at seqno 2 is dispatched with must_apply = (2 ≥ 3) = false. -/
theorem ready_overwrites_threshold_witness :
    (⟨2, ActType.writeset, false, false⟩ : Dispatch).mustApply
      = decide ((⟨2, ActType.writeset, false, false⟩ : Dispatch).seqno ≥ (3 : Int)) :=
  (ready_overwrites_threshold [] Receiver.init 7 10 8 0 3
      ⟨none, false, [⟨ActType.writeset, 2, false⟩]⟩).2
    ⟨2, ActType.writeset, false, false⟩ (by decide)

/-- C3 counterexample: finished() before ready() on a receiver prepared
    with first_seqno=5, last_seqno=10 interrupts the SST wait; the receive
    task then reaches the err label with ec=0 and current_seqno_=-1, so the
    short-stream check overwrites ec with EPROTO: ist_end is invoked with
    EPROTO, which is neither EINTR nor 0. -/
theorem early_cancel_eproto_cex :
    (runReceiver 5 10 WSREP_SEQNO_UNDEFINED ⟨none, true, []⟩).dispatched = [] ∧
    (runReceiver 5 10 WSREP_SEQNO_UNDEFINED ⟨none, true, []⟩).istEnd = EPROTO ∧
    (runReceiver 5 10 WSREP_SEQNO_UNDEFINED ⟨none, true, []⟩).istEnd ≠ EINTR ∧
    (runReceiver 5 10 WSREP_SEQNO_UNDEFINED ⟨none, true, []⟩).istEnd ≠ 0 := by
  refine ⟨rfl, rfl, ?_, ?_⟩
  · decide
  · decide

/-- C3 amended: finished() before ready() dispatches no frames; when the
    rendezvous is interrupted, ist_end receives EPROTO if last_seqno is
    positive (the pre-SST current_seqno_ = -1 trips the short-stream check)
    and 0 otherwise; when the receive task is still in accept() and the
    loopback EOF aborts the handshake with EINTR, ist_end receives EINTR
    and error_code_ is left untouched. -/
theorem early_cancel_amended (fs last : Int) :
    (runReceiver fs last WSREP_SEQNO_UNDEFINED ⟨none, true, []⟩
       = ⟨[], if 0 < last then EPROTO else 0, some (if 0 < last then EPROTO else 0),
          WSREP_SEQNO_UNDEFINED⟩) ∧
    (runReceiver fs last WSREP_SEQNO_UNDEFINED ⟨some EINTR, false, []⟩
       = ⟨[], EINTR, none, WSREP_SEQNO_UNDEFINED⟩) := by
  constructor
  · by_cases h : 0 < last
    · have hu : WSREP_SEQNO_UNDEFINED < last := by
        unfold WSREP_SEQNO_UNDEFINED
        omega
      simp [runReceiver, EPROTO, EINTR, h, hu]
    · simp [runReceiver, EINTR, h]
  · simp [runReceiver]

/-- C4 counterexample: with a cache whose seqno_get_buffers returns no
    buffers (n_read <= 0) on the very first round of send(2, 5, 0), the
    while loop exits and Sender::send returns normally - Except.ok with no
    frames and no EOF - rather than surfacing an error. -/
theorem sender_nread_zero_cex :
    sendModel 10 0 2 5 0 (fun _ _ => []) = Except.ok ⟨[], false⟩ := rfl

/-- C4 amended: when seqno_get_buffers returns n_read <= 0 before a buffer
    with seqno_g = last was sent, send exits its loop and returns normally,
    without an error and without sending EOF; the truncation is detected
    only by the receiver, whose empty stream ends with ist_end(EPROTO), and
    run_async_sender reports join_seqno = last as if the send succeeded. -/
theorem sender_nread_zero_amended (version ctrl first last ps fs : Int)
    (h0 : 0 < first) (h1 : first ≤ last) (hc : 0 ≤ ctrl) :
    sendModel version ctrl first last ps (fun _ _ => []) = Except.ok ⟨[], false⟩ ∧
    (runReceiver fs last WSREP_SEQNO_UNDEFINED ⟨none, false, []⟩).istEnd = EPROTO ∧
    runAsyncSenderJoinSeqno last (Except.ok ()) = last := by
  refine ⟨?_, ?_, rfl⟩
  · have c1 : ¬(first > last ∧ version < VER40) := by omega
    have c2 : ¬(ctrl < 0) := by omega
    have c3 : ¬(first > last ∨ (first = 0 ∧ last = 0)) := by omega
    simp only [sendModel, if_neg c1, if_neg c2, if_neg c3]
    simp [sendLoop]
  · have hu : WSREP_SEQNO_UNDEFINED < last := by
      unfold WSREP_SEQNO_UNDEFINED
      omega
    have hl : 0 < last := by omega
    simp [runReceiver, streamLoop, EINTR, EPROTO, hl, hu]

/-- C4 witness: the concrete empty-cache send(2, 5) returns Except.ok while
    the receiver of the resulting empty stream reports EPROTO. -/
theorem sender_nread_zero_amended_witness :
    sendModel 10 0 2 5 0 (fun _ _ => []) = Except.ok ⟨[], false⟩ ∧
    (runReceiver 3 5 WSREP_SEQNO_UNDEFINED ⟨none, false, []⟩).istEnd = EPROTO ∧
    runAsyncSenderJoinSeqno 5 (Except.ok ()) = 5 :=
  sender_nread_zero_amended 10 0 2 5 0 3 (by decide) (by decide) (by decide)

/-- C5 counterexample: a sender constructed with protocol version 9 (below
    VER40) and asked to send(2, 1, 0) - first > last - throws EINVAL before
    the handshake instead of sending only an EOF control frame and
    returning normally. -/
theorem sender_version_guard_cex :
    sendModel 9 0 2 1 0 canonCache = Except.error EINVAL := rfl

/-- C5 amended: with first > last the EOF-only path requires protocol
    version ≥ VER40 (below VER40, send throws EINVAL before the handshake);
    with first = last = 0 it holds for any version: after a successful
    handshake the sender sends only EOF and returns normally, streaming
    zero ordered frames. -/
theorem sender_empty_range_eof (version ctrl first last ps : Int)
    (sgb : Int → Nat → List Buffer) (hc : 0 ≤ ctrl)
    (h : (first > last ∧ version ≥ VER40) ∨ (first = 0 ∧ last = 0)) :
    sendModel version ctrl first last ps sgb = Except.ok ⟨[], true⟩ ∧
    (∀ (v2 c2 f2 l2 p2 : Int) (sgb2 : Int → Nat → List Buffer),
       f2 > l2 → v2 < VER40 →
       sendModel v2 c2 f2 l2 p2 sgb2 = Except.error EINVAL) := by
  constructor
  · have c1 : ¬(first > last ∧ version < VER40) := by
      rcases h with ⟨_, hv⟩ | ⟨hf, hl⟩
      · omega
      · omega
    have c2 : ¬(ctrl < 0) := by omega
    have c3 : first > last ∨ (first = 0 ∧ last = 0) := by
      rcases h with ⟨hgt, _⟩ | hz
      · exact Or.inl hgt
      · exact Or.inr hz
    simp only [sendModel, if_neg c1, if_neg c2, if_pos c3]
  · intro v2 c2 f2 l2 p2 sgb2 hgt hv
    have hcon : f2 > l2 ∧ v2 < VER40 := ⟨hgt, hv⟩
    simp only [sendModel, if_pos hcon]

/-- C5 witness: send(5, 2, 0) at version 10 (VER40) with a clean handshake
    sends only EOF. -/
theorem sender_empty_range_eof_witness :
    sendModel 10 0 5 2 0 canonCache = Except.ok ⟨[], true⟩ ∧
    (∀ (v2 c2 f2 l2 p2 : Int) (sgb2 : Int → Nat → List Buffer),
       f2 > l2 → v2 < VER40 →
       sendModel v2 c2 f2 l2 p2 sgb2 = Except.error EINVAL) :=
  sender_empty_range_eof 10 0 5 2 0 canonCache (by decide)
    (Or.inl ⟨by decide, by decide⟩)

/-- C7: Receiver::prepare fails with EINVAL when neither ist.recv_addr nor
    base_host is configured; no listener is bound and no receive thread is
    started. -/
theorem prepare_missing_addr_einval (conf : Config) (st0 : Receiver)
    (first last version : Int) (sourceId : Nat)
    (ha : lookupConf conf RECV_ADDR = none)
    (hb : lookupConf conf BASE_HOST_KEY = none) :
    (Receiver.prepare conf st0 first last version sourceId).res = Except.error EINVAL ∧
    (Receiver.prepare conf st0 first last version sourceId).listenerBound = false ∧
    (Receiver.prepare conf st0 first last version sourceId).threadStarted = false := by
  have hd : istDetermineRecvAddr conf = Except.error EINVAL := by
    simp only [istDetermineRecvAddr, ha, hb]
  simp [Receiver.prepare, hd]

/-- C7 witness: an empty configuration has neither key, and prepare fails
    with EINVAL. -/
theorem prepare_missing_addr_einval_witness :
    (Receiver.prepare [] Receiver.init 5 10 7 0).res = Except.error EINVAL ∧
    (Receiver.prepare [] Receiver.init 5 10 7 0).listenerBound = false ∧
    (Receiver.prepare [] Receiver.init 5 10 7 0).threadStarted = false :=
  prepare_missing_addr_einval [] Receiver.init 5 10 7 0 rfl rfl

/-- C9: finished() on a receiver whose prepare never succeeded (empty
    recv_addr_, including after prepare threw) performs no interrupt and no
    join, leaves the state unchanged and returns current_seqno_, which on a
    fresh receiver is still WSREP_SEQNO_UNDEFINED = -1. -/
theorem finished_unprepared_noop :
    (∀ st : Receiver, st.recvAddr = "" →
       Receiver.finished st = ⟨st, st.currentSeqno, false, false⟩) ∧
    (Receiver.finished (Receiver.prepare [] Receiver.init 5 10 7 0).st
       = ⟨(Receiver.prepare [] Receiver.init 5 10 7 0).st,
          WSREP_SEQNO_UNDEFINED, false, false⟩) ∧
    Receiver.init.currentSeqno = WSREP_SEQNO_UNDEFINED := by
  refine ⟨?_, rfl, rfl⟩
  intro st h
  simp [Receiver.finished, h]

/-- C9 witness: the freshly constructed receiver has empty recv_addr_ and
    finished() is a no-op returning -1. -/
theorem finished_unprepared_noop_witness :
    Receiver.init.recvAddr = "" ∧
    Receiver.finished Receiver.init
      = ⟨Receiver.init, Receiver.init.currentSeqno, false, false⟩ :=
  ⟨rfl, finished_unprepared_noop.1 Receiver.init rfl⟩

/-- C10: AsyncSenderMap::remove erases exactly the given sender when
    present and throws NotFound when absent; its seqno argument has no
    effect, so the join_seqno computed by run_async_sender (last on
    success, -errno on failure) is discarded by the supervisor. -/
theorem async_map_remove_spec :
    (∀ (s : Finset Nat) (as : Nat) (q : Int), as ∈ s →
       AsyncSenderMap.remove s as q = Except.ok (s.erase as) ∧
       ∀ x : Nat, x ∈ s.erase as ↔ x ∈ s ∧ x ≠ as) ∧
    (∀ (s : Finset Nat) (as : Nat) (q : Int), as ∉ s →
       AsyncSenderMap.remove s as q = Except.error ()) ∧
    (∀ (s : Finset Nat) (as : Nat) (q q2 : Int),
       AsyncSenderMap.remove s as q = AsyncSenderMap.remove s as q2) ∧
    (∀ (s : Finset Nat) (as : Nat) (last : Int) (res : Except Int Unit),
       runAsyncSender s as last res = AsyncSenderMap.remove s as 0) ∧
    (∀ last e : Int, runAsyncSenderJoinSeqno last (Except.ok ()) = last ∧
       runAsyncSenderJoinSeqno last (Except.error e) = -e) := by
  refine ⟨?_, ?_, ?_, ?_, ?_⟩
  · intro s as q h
    constructor
    · simp [AsyncSenderMap.remove, h]
    · intro x
      constructor
      · intro hx
        exact ⟨Finset.mem_of_mem_erase hx, Finset.ne_of_mem_erase hx⟩
      · rintro ⟨hx, hne⟩
        exact Finset.mem_erase.mpr ⟨hne, hx⟩
  · intro s as q h
    simp [AsyncSenderMap.remove, h]
  · intro s as q q2
    rfl
  · intro s as last res
    rfl
  · intro last e
    exact ⟨rfl, rfl⟩

/-- C10 witness: removing sender 1 from the two-element set erases it. -/
theorem async_map_remove_spec_witness :
    (1 : Nat) ∈ ({1, 2} : Finset Nat) ∧
    AsyncSenderMap.remove {1, 2} 1 5 = Except.ok (({1, 2} : Finset Nat).erase 1) :=
  ⟨by decide, (async_map_remove_spec.1 {1, 2} 1 5 (by decide)).1⟩

end Galera
